import Mathlib

/-!
Verification development for the CapstoneJobAutoApply repository.

The repository ships a React client (`frontend/src`, mirrored here under
`src/client`) together with extensive design documentation for a Flask
backend (match scorer, queue store, dispatcher, automation executor and
retry/backoff controller).  The backend service modules themselves
(`backend/src/services/job_matching.py`, `backend/src/routes/queue.py`,
`backend/src/services/automation_tasks.py`, ...) are not part of the
checked-in sources; only their documentation and callers are.  Those
components are therefore modelled here from the specification's words
(each such definition carries a doc comment starting `Modelled from the
spec:`).  The client-side authentication flow
(`src/client/src/contexts/AuthContext.jsx`) is embedded from the actual
source.

Numeric scores use `ℚ` (the source material speaks of percentages
0 - 100); machine-integer overflow plays no role in any modelled
computation.
-/

/-! ## Match Scorer (spec §4.1) -/

/-- Modelled from the spec: the named weight options of the Match Scorer
(`{skillsWeight, experienceWeight, locationWeight, salaryWeight}`,
§4.1); the implementation `backend/src/services/job_matching.py` is not
among the checked-in sources. -/
structure ScoreConfig where
  skillsWeight : ℚ
  experienceWeight : ℚ
  locationWeight : ℚ
  salaryWeight : ℚ
deriving DecidableEq, Repr

/-- Modelled from the spec: the default weighting
`overallScore = 0.5*skills + 0.3*experience + 0.1*location + 0.1*salary`
(§4.1). -/
def defaultScoreConfig : ScoreConfig :=
  { skillsWeight := 1/2
    experienceWeight := 3/10
    locationWeight := 1/10
    salaryWeight := 1/10 }

/-- Modelled from the spec: location preferences of a profile (§4.1 and
§6 `GetProfile`): a remote-eligibility flag, a configured radius, and
the profile's position on an abstract one-dimensional coordinate (the
geospatial details live in an external geocoding collaborator). -/
structure LocationPrefs where
  remoteEligible : Bool
  radius : ℚ
  position : ℚ
deriving DecidableEq, Repr

/-- Modelled from the spec: the profile data consumed by the Match
Scorer (§6 `GetProfile(userId) → {skills, experienceLevel,
locationPrefs, salaryMin}`).  Every field is optional: §4.1 requires
missing profile fields to degrade the relevant component score to 0
rather than erroring.  Skills are abstract identifiers (synonym
expansion is treated as already applied). -/
structure Profile where
  skills : Option (Finset ℕ)
  experienceLevel : Option ℕ
  locationPrefs : Option LocationPrefs
  salaryMin : Option ℚ
deriving DecidableEq

/-- Modelled from the spec: a job posting (§6 `JobPosting {id, url,
title, company, requiredSkills, salaryRange, location}`), extended with
the required experience level that §4.1's experience component consumes.
`location` is a position on the same abstract coordinate as
`LocationPrefs.position`; `salaryRange` is an optional closed interval
(low, high). -/
structure JobPosting where
  id : ℕ
  url : String
  title : String
  company : String
  requiredSkills : Finset ℕ
  requiredLevel : ℕ
  salaryRange : Option (ℚ × ℚ)
  location : ℚ
deriving DecidableEq

/-- Modelled from the spec: the output of scoring a (profile, job) pair
(§3 `MatchResult`): `overallScore`, the four component scores and an
ordered list of human-readable contributing factors. -/
structure MatchResult where
  overallScore : ℚ
  skills : ℚ
  experience : ℚ
  location : ℚ
  salary : ℚ
  factors : List String
deriving DecidableEq

/-- Modelled from the spec: the skills component (§4.1): weighted
set-overlap (Jaccard-style) between the profile's skills and the
posting's required skills, scaled to [0,100].  A missing skills field
degrades to 0; an empty union scores 0. -/
def skillsScore (pskills : Option (Finset ℕ)) (req : Finset ℕ) : ℚ :=
  match pskills with
  | none => 0
  | some ps =>
    if (ps ∪ req).card = 0 then 0
    else 100 * ((ps ∩ req).card : ℚ) / ((ps ∪ req).card : ℚ)

/-- Modelled from the spec: the experience component (§4.1): distance
between the profile's experience level and the posting's required
level; exact match scores 100, one level off 50, two or more off 0.  A
missing level degrades to 0. -/
def experienceScore (plevel : Option ℕ) (req : ℕ) : ℚ :=
  match plevel with
  | none => 0
  | some l =>
    if l = req then 100
    else if l + 1 = req ∨ req + 1 = l then 50
    else 0

/-- Modelled from the spec: the location component (§4.1): 100 when
remote-eligible, otherwise decaying linearly from 100 at distance 0 to
0 at the radius boundary, and 0 beyond.  Missing preferences degrade
to 0. -/
def locationScore (prefs : Option LocationPrefs) (jobPos : ℚ) : ℚ :=
  match prefs with
  | none => 0
  | some pr =>
    if pr.remoteEligible then 100
    else if pr.radius ≤ 0 then 0
    else if pr.radius ≤ |jobPos - pr.position| then 0
    else 100 * (pr.radius - |jobPos - pr.position|) / pr.radius

/-- Modelled from the spec: the salary component (§4.1): 100 when the
posting's range reaches the user's minimum-acceptable salary (in
particular whenever the range contains that minimum), 0 when the
posting's maximum lies below the minimum.  Missing profile or posting
salary data degrades to 0. -/
def salaryScore (smin : Option ℚ) (range : Option (ℚ × ℚ)) : ℚ :=
  match smin, range with
  | some m, some r => if r.2 < m then 0 else 100
  | _, _ => 0

/-- Modelled from the spec: `Score(profile, posting) → MatchResult`
(§4.1), the pure Match Scorer whose implementation
`backend/src/services/job_matching.py` is not among the checked-in
sources.  Computes the four component scores and their weighted sum. -/
def Score (cfg : ScoreConfig) (p : Profile) (posting : JobPosting) : MatchResult :=
  let sk := skillsScore p.skills posting.requiredSkills
  let ex := experienceScore p.experienceLevel posting.requiredLevel
  let lo := locationScore p.locationPrefs posting.location
  let sa := salaryScore p.salaryMin posting.salaryRange
  { overallScore :=
      cfg.skillsWeight * sk + cfg.experienceWeight * ex +
        cfg.locationWeight * lo + cfg.salaryWeight * sa
    skills := sk
    experience := ex
    location := lo
    salary := sa
    factors :=
      ["skills overlap with " ++ posting.title,
       "experience level fit",
       "location fit",
       "salary range fit"] }

/-! ## Queue Store, Dispatcher and Retry/Backoff Controller (spec §3 - §4.4)

The backend queue modules (`backend/src/routes/queue.py`,
`backend/src/services/automation_tasks.py`,
`backend/src/services/celery_config.py`) are not among the checked-in
sources; the whole submission lifecycle below is modelled from the
specification.  One reconciliation is forced by the spec itself: §3
defines `attempts` as the "count of execution tries so far" and §8's
Scenario C requires `attempts = 3` after two retryable failures and one
success, which is only possible when the counter advances once per
dispatched try; the model therefore increments `attempts` when the
Dispatcher starts a try, and `Resolve` consults (but does not change)
the counter.  The anti-detection pacing policy (§4.5) is an external
guard on dispatch and is abstracted away; `QuotaExceeded` and the
mid-attempt checkpoint cancellation (§5) are likewise outside the
modelled operations. -/

/-- Modelled from the spec: the status set of a `QueueEntry` (§3). -/
inductive Status where
  | pending
  | scheduled
  | in_progress
  | needs_manual_action
  | succeeded
  | failed
  | cancelled
deriving DecidableEq, Repr

/-- Modelled from the spec: terminal statuses (§3, glossary): a status
from which no further automated transition occurs. -/
def Status.isTerminal : Status → Bool
  | .succeeded => true
  | .failed => true
  | .cancelled => true
  | _ => false

/-- Modelled from the spec: the outcome taxonomy of one automation
attempt (§4.3, §4.4, §7). -/
inductive Outcome where
  | navigationError
  | formDetectionError
  | fieldFillError
  | transientSubmissionError
  | internalFault
  | captchaDetected
  | unsupportedPlatformError
  | duplicateApplication
  | postingClosed
  | success
deriving DecidableEq, Repr

/-- Modelled from the spec: retryable outcomes (§4.4, §7):
`NavigationError`, `FormDetectionError`, `FieldFillError`, transient
`SubmissionError` and `InternalFault`. -/
def Outcome.isRetryable : Outcome → Bool
  | .navigationError => true
  | .formDetectionError => true
  | .fieldFillError => true
  | .transientSubmissionError => true
  | .internalFault => true
  | _ => false

/-- Modelled from the spec: one user's request to apply to one job (§3
`QueueEntry`). -/
structure QueueEntry where
  id : ℕ
  userId : ℕ
  jobId : ℕ
  jobUrl : String
  priority : ℤ
  status : Status
  attempts : ℕ
  maxAttempts : ℕ
  createdAt : ℕ
  dispatchedAt : Option ℕ
  completedAt : Option ℕ
  scheduledFor : Option ℕ
  lastError : Option Outcome
deriving DecidableEq, Repr

/-- Modelled from the spec: queue configuration: the retry budget given
to new entries and the base backoff delay (§4.4). -/
structure QueueConfig where
  defaultMaxAttempts : ℕ
  baseDelay : ℕ
deriving DecidableEq, Repr

/-- Modelled from the spec: synchronous errors surfaced to the caller
(§4.2, §7): `DuplicateError` on a duplicate enqueue, `InvalidStateError`
on an ineligible cancel/dispatch/resolve, and a not-found report. -/
inductive QueueError where
  | DuplicateError
  | InvalidStateError
  | NotFoundError
deriving DecidableEq, Repr

/-- Modelled from the spec: the durable Queue Store state (§3): the
recorded entries plus the next unused identifier. -/
structure QState where
  entries : List QueueEntry
  nextId : ℕ
deriving DecidableEq, Repr

/-- Modelled from the spec: the empty store a process starts from. -/
def initState : QState := { entries := [], nextId := 0 }

/-- Modelled from the spec: whether a non-terminal entry already exists
for the (userId, jobId) pair (§4.2's duplicate check). -/
def nonTerminalFor (s : QState) (userId jobId : ℕ) : Bool :=
  s.entries.any fun e =>
    e.userId == userId && e.jobId == jobId && !e.status.isTerminal

/-- Modelled from the spec: the fresh entry an `Enqueue` call records
(§3, §4.2): status `pending`, zero attempts, the configured retry
budget. -/
def newEntry (cfg : QueueConfig) (s : QState) (userId jobId : ℕ)
    (jobUrl : String) (priority : ℤ) (now : ℕ) : QueueEntry :=
  { id := s.nextId
    userId := userId
    jobId := jobId
    jobUrl := jobUrl
    priority := priority
    status := .pending
    attempts := 0
    maxAttempts := cfg.defaultMaxAttempts
    createdAt := now
    dispatchedAt := none
    completedAt := none
    scheduledFor := none
    lastError := none }

/-- Modelled from the spec: `Enqueue(userId, jobId, jobUrl, priority) →
entryId` (§4.2): fails with `DuplicateError` when a non-terminal entry
already exists for (userId, jobId), otherwise records a fresh `pending`
entry and returns its identifier. -/
def Enqueue (cfg : QueueConfig) (s : QState) (userId jobId : ℕ)
    (jobUrl : String) (priority : ℤ) (now : ℕ) :
    Except QueueError (QState × ℕ) :=
  if nonTerminalFor s userId jobId then
    .error .DuplicateError
  else
    .ok ({ entries := s.entries ++ [newEntry cfg s userId jobId jobUrl priority now]
           nextId := s.nextId + 1 },
         s.nextId)

/-- Modelled from the spec: update the entry carrying a given id,
leaving every other entry unchanged (the Queue Store serializes status
writes per entry, §5). -/
def updateEntry (s : QState) (entryId : ℕ) (f : QueueEntry → QueueEntry) : QState :=
  { s with entries := s.entries.map fun e => if e.id == entryId then f e else e }

/-- Modelled from the spec: `Cancel(entryId)` (§4.2): succeeds only
while the status is `pending` or `scheduled`; fails with
`InvalidStateError` once dispatched. -/
def Cancel (s : QState) (entryId : ℕ) : Except QueueError QState :=
  match s.entries.find? (fun e => e.id == entryId) with
  | none => .error .NotFoundError
  | some e =>
    if e.status = .pending ∨ e.status = .scheduled then
      .ok (updateEntry s entryId fun e => { e with status := .cancelled })
    else
      .error .InvalidStateError

/-- Modelled from the spec: whether an entry's scheduled-for time (if
any, from backoff) has elapsed at `now` (§4.2's eligibility check). -/
def readyAt (sf : Option ℕ) (now : ℕ) : Bool :=
  match sf with
  | none => true
  | some t => decide (t ≤ now)

/-- Modelled from the spec: whether the user currently owns an
`in_progress` entry (§4.2's eligibility check, §5's per-user lock). -/
def userBusy (s : QState) (userId : ℕ) : Bool :=
  s.entries.any fun e => e.userId == userId && e.status == .in_progress

/-- Modelled from the spec: the per-entry effect of a dispatch: the
Dispatcher hands the entry to a worker, marking it `in_progress` and
counting the started execution try (§3: `attempts` is the count of
execution tries so far). -/
def dispatchEntry (e : QueueEntry) (now : ℕ) : QueueEntry :=
  { e with status := .in_progress, attempts := e.attempts + 1, dispatchedAt := some now }

/-- Modelled from the spec: the Dispatcher releasing one eligible entry
to a worker (§4.2): the entry must be `pending` or `scheduled`, its
scheduled-for time (if any) must have elapsed, and the owning user must
currently have zero `in_progress` entries.  The status write is the
atomic check-and-set of §5. -/
def Dispatch (s : QState) (entryId : ℕ) (now : ℕ) : Except QueueError QState :=
  match s.entries.find? (fun e => e.id == entryId) with
  | none => .error .NotFoundError
  | some e =>
    if (e.status = .pending ∨ e.status = .scheduled)
        ∧ readyAt e.scheduledFor now = true
        ∧ userBusy s e.userId = false then
      .ok (updateEntry s entryId fun e => dispatchEntry e now)
    else
      .error .InvalidStateError

/-- Modelled from the spec: the per-entry effect of resolving one
attempt outcome (§4.4 `Resolve`): success becomes `succeeded` with
`completedAt` recorded; a retryable outcome becomes `scheduled` with
next-eligible time `baseDelay * 2 ^ attempts + jitter` while the retry
budget lasts and otherwise permanently `failed` with `lastError`
recorded; `CaptchaDetected` becomes `needs_manual_action` with
`attempts` untouched; the remaining outcomes are terminal failures. -/
def resolveEntry (cfg : QueueConfig) (e : QueueEntry) (o : Outcome)
    (now jitter : ℕ) : QueueEntry :=
  if o = .success then
    { e with status := .succeeded, completedAt := some now }
  else if o.isRetryable then
    if e.attempts < e.maxAttempts then
      { e with status := .scheduled
               scheduledFor := some (cfg.baseDelay * 2 ^ e.attempts + jitter) }
    else
      { e with status := .failed, completedAt := some now, lastError := some o }
  else if o = .captchaDetected then
    { e with status := .needs_manual_action }
  else
    { e with status := .failed, completedAt := some now, lastError := some o }

/-- Modelled from the spec: the Retry/Backoff Controller resolving the
outcome of one attempt on an `in_progress` entry (§4.4).  `jitter` is
the sampled value of `jitter(0, baseDelay)`. -/
def Resolve (cfg : QueueConfig) (s : QState) (entryId : ℕ) (o : Outcome)
    (now jitter : ℕ) : Except QueueError QState :=
  match s.entries.find? (fun e => e.id == entryId) with
  | none => .error .NotFoundError
  | some e =>
    if e.status = .in_progress then
      .ok (updateEntry s entryId fun e => resolveEntry cfg e o now jitter)
    else
      .error .InvalidStateError

/-- Modelled from the spec: one observable evolution step of the system:
a successful `Enqueue`, `Cancel`, `Dispatch` or `Resolve` (failed calls
leave the store untouched). -/
inductive QStep (cfg : QueueConfig) : QState → QState → Prop where
  | enqueue (s s' : QState) (userId jobId : ℕ) (jobUrl : String)
      (priority : ℤ) (now eid : ℕ)
      (h : Enqueue cfg s userId jobId jobUrl priority now = .ok (s', eid)) :
      QStep cfg s s'
  | cancel (s s' : QState) (entryId : ℕ)
      (h : Cancel s entryId = .ok s') : QStep cfg s s'
  | dispatch (s s' : QState) (entryId now : ℕ)
      (h : Dispatch s entryId now = .ok s') : QStep cfg s s'
  | resolve (s s' : QState) (entryId : ℕ) (o : Outcome) (now jitter : ℕ)
      (h : Resolve cfg s entryId o now jitter = .ok s') : QStep cfg s s'

/-- Modelled from the spec: the reachable states of the system: every
state an operation sequence can produce from the empty store. -/
def Reachable (cfg : QueueConfig) (s : QState) : Prop :=
  Relation.ReflTransGen (QStep cfg) initState s

/-- The three store invariants every reachable state satisfies: ids are
below the next-id counter, ids are pairwise distinct, and no two
entries of one user are simultaneously `in_progress` (§5's per-user
lock). -/
structure StoreInv (s : QState) : Prop where
  bounded : ∀ e ∈ s.entries, e.id < s.nextId
  nodup : s.entries.Pairwise fun a b => a.id ≠ b.id
  onePerUser : s.entries.Pairwise fun a b =>
    ¬(a.userId = b.userId ∧ a.status = Status.in_progress ∧
      b.status = Status.in_progress)

/-- The per-entry attempts discipline every reachable state satisfies:
a positive retry budget, `attempts ≤ maxAttempts`, and a strict bound
while the entry is still dispatchable. -/
def AttemptsOk (s : QState) : Prop :=
  ∀ e ∈ s.entries,
    0 < e.maxAttempts ∧ e.attempts ≤ e.maxAttempts ∧
      ((e.status = Status.pending ∨ e.status = Status.scheduled) →
        e.attempts < e.maxAttempts)

/-- The status transition edges exactly as the specification's claimed
state machine lists them (§8: pending/scheduled → in_progress →
{succeeded, needs_manual_action, scheduled, failed}); stated separately
so the model's observed transitions can be compared against it. -/
def specEdge : Status → Status → Bool
  | .pending, .in_progress => true
  | .scheduled, .in_progress => true
  | .in_progress, .succeeded => true
  | .in_progress, .needs_manual_action => true
  | .in_progress, .scheduled => true
  | .in_progress, .failed => true
  | _, _ => false

/-- The claimed edge set extended with the two cancellation edges §4.2's
`Cancel` produces (`pending → cancelled`, `scheduled → cancelled`). -/
def validEdge (a b : Status) : Bool :=
  specEdge a b || ((a == Status.pending || a == Status.scheduled) && b == Status.cancelled)

/-! ## Client authentication flow (`src/client/src/contexts/AuthContext.jsx`)

Embedding of the `login` function of the React `AuthProvider` (lines
61 - 94).  The provider keeps three pieces of authentication state: the
token persisted in `localStorage`, the `token` React state and the
`user` React state.  `login(email, password)` first clears all three
("Clear any existing auth state"), then calls `authAPI.login`; a
rejected call is caught and reported as `success: false`, a resolved
call is validated (`!access_token || typeof access_token !== 'string'`
throws "Invalid token received") and only then are the token and user
stored.  The outcome of the `authAPI.login` network call is abstracted
as a `LoginResponse` input: `err` for a rejected promise, `ok` carrying
the resolved payload, whose `access_token` field may be absent or empty
(the falsy cases of the validation). -/

structure AuthState where
  storedToken : Option String
  token : Option String
  user : Option ℕ
deriving DecidableEq, Repr

/-- The outcome of the `authAPI.login` call, as seen by `login`. -/
inductive LoginResponse where
  | err (msg : String)
  | ok (accessToken : Option String) (userData : Option ℕ)
deriving DecidableEq, Repr

/-- The value `login` resolves with: `{ success, user }` on success,
`{ success: false, error }` on failure. -/
structure LoginResult where
  success : Bool
  user : Option ℕ
  error : Option String
deriving DecidableEq, Repr

/-- The fully cleared authentication state (`localStorage.removeItem`,
`setToken(null)`, `setUser(null)`). -/
def clearedAuth : AuthState :=
  { storedToken := none, token := none, user := none }

/-- Embedding of `login` (AuthContext.jsx:61-94): clear the existing
auth state, consult the API response, validate the token, and either
store token and user or return a failure result while the state stays
cleared. -/
def login (s : AuthState) (resp : LoginResponse) : AuthState × LoginResult :=
  match resp with
  | .err m => (clearedAuth, { success := false, user := none, error := some m })
  | .ok accessToken userData =>
    match accessToken with
    | none =>
      (clearedAuth,
       { success := false, user := none, error := some "Invalid token received" })
    | some t =>
      if t = "" then
        (clearedAuth,
         { success := false, user := none, error := some "Invalid token received" })
      else
        ({ storedToken := some t, token := some t, user := userData },
         { success := true, user := userData, error := none })

/-! ## Concrete configurations, states and scenarios -/

/-- A queue configuration with the retry budget of §8's Scenario C
(`maxAttempts = 5`) and base delay 30. -/
def cfg0 : QueueConfig := { defaultMaxAttempts := 5, baseDelay := 30 }

/-- A configuration whose retry budget is a single attempt. -/
def cfgC2 : QueueConfig := { defaultMaxAttempts := 1, baseDelay := 10 }

/-- The store after enqueueing one job for user 7. -/
def sW1 : QState :=
  { entries := [newEntry cfg0 initState 7 42 "jobUrl" 5 0], nextId := 1 }

/-- The store `sW1` after dispatching the entry. -/
def sW2 : QState := updateEntry sW1 0 fun e => dispatchEntry e 1

/-- The store `sW1` after cancelling the entry instead. -/
def sW1c : QState := updateEntry sW1 0 fun e => { e with status := Status.cancelled }

/-- One entry for user 3 under the single-attempt configuration. -/
def sC2a : QState :=
  { entries := [newEntry cfgC2 initState 3 8 "jobUrl" 0 0], nextId := 1 }

/-- The store `sC2a` after dispatching the entry (its only permitted
try). -/
def sC2b : QState := updateEntry sC2a 0 fun e => dispatchEntry e 0

/-- The store `sC2b` after that try succeeds: the entry now has
`attempts = maxAttempts = 1` and status `succeeded`. -/
def sC2c : QState := updateEntry sC2b 0 fun e => resolveEntry cfgC2 e .success 1 0

/-- An `in_progress` entry on its first attempt (`attempts = 1`,
`maxAttempts = 5`). -/
def eC7 : QueueEntry := dispatchEntry (newEntry cfg0 initState 2 5 "jobUrl" 0 0) 0

/-- A store holding just `eC7`. -/
def sC7 : QState := { entries := [eC7], nextId := 1 }

/-- Modelled from the spec: §8's Scenario C as one operation sequence:
enqueue, then three dispatch/resolve rounds whose outcomes are
`NavigationError`, `NavigationError`, success. -/
def scenarioC (cfg : QueueConfig) : Except QueueError QState := do
  let r ← Enqueue cfg initState 7 42 "jobUrl" 5 0
  let s2 ← Dispatch r.1 r.2 1000
  let s3 ← Resolve cfg s2 r.2 .navigationError 1000 7
  let s4 ← Dispatch s3 r.2 2000
  let s5 ← Resolve cfg s4 r.2 .navigationError 2000 7
  let s6 ← Dispatch s5 r.2 3000
  Resolve cfg s6 r.2 .success 3000 0

/-- The entry `eC7` parked for manual action after a captcha. -/
def eM : QueueEntry := { eC7 with status := Status.needs_manual_action }

/-- A store holding just the manual-action entry `eM`. -/
def sM : QState := { entries := [eM], nextId := 1 }

/-- The fresh entry of `sW1`. -/
def eW : QueueEntry := newEntry cfg0 initState 7 42 "jobUrl" 5 0

/-- The entry of `sC2b`: `in_progress` with `attempts = maxAttempts = 1`. -/
def eB : QueueEntry := dispatchEntry (newEntry cfgC2 initState 3 8 "jobUrl" 0 0) 0

/-- The succeeded entry of `sC2c`. -/
def eC2s : QueueEntry := resolveEntry cfgC2 eB .success 1 0

/-- The entry `eB` after a retryable failure at the attempts limit:
permanently `failed`. -/
def eF : QueueEntry := resolveEntry cfgC2 eB .navigationError 1 0

/-- The store `sC2b` after the dispatched try fails with
`NavigationError` at the attempts limit. -/
def sC2f : QState := updateEntry sC2b 0 fun e => resolveEntry cfgC2 e .navigationError 1 0

/-- The store `sC2f` after enqueueing a fresh job for another user. -/
def sC2f2 : QState :=
  { entries := sC2f.entries ++ [newEntry cfgC2 sC2f 9 9 "jobUrl" 0 2], nextId := 2 }

/-! ## Structural lemmas about the queue operations -/

/-- Inversion of a successful `Enqueue`: no duplicate existed, the
returned id is the store's next id, and the new state appends the fresh
entry. -/
lemma enqueue_ok {cfg : QueueConfig} {s s' : QState} {u j : ℕ} {url : String}
    {p : ℤ} {now eid : ℕ}
    (h : Enqueue cfg s u j url p now = .ok (s', eid)) :
    nonTerminalFor s u j = false ∧ eid = s.nextId ∧
      s' = { entries := s.entries ++ [newEntry cfg s u j url p now]
             nextId := s.nextId + 1 } := by
  unfold Enqueue at h
  split at h
  · simp at h
  · next hdup =>
    simp only [Except.ok.injEq, Prod.mk.injEq] at h
    exact ⟨by simpa using hdup, h.2.symm, h.1.symm⟩

/-- Inversion of a successful `Cancel`. -/
lemma cancel_ok {s s' : QState} {eid : ℕ} (h : Cancel s eid = .ok s') :
    ∃ e0, s.entries.find? (fun e => e.id == eid) = some e0 ∧
      (e0.status = .pending ∨ e0.status = .scheduled) ∧
      s' = updateEntry s eid fun e => { e with status := .cancelled } := by
  unfold Cancel at h
  split at h
  · simp at h
  · next e0 hf =>
    split at h
    · next hst =>
      simp only [Except.ok.injEq] at h
      exact ⟨e0, hf, hst, h.symm⟩
    · simp at h

/-- Inversion of a successful `Dispatch`. -/
lemma dispatch_ok {s s' : QState} {eid now : ℕ} (h : Dispatch s eid now = .ok s') :
    ∃ e0, s.entries.find? (fun e => e.id == eid) = some e0 ∧
      (e0.status = .pending ∨ e0.status = .scheduled) ∧
      readyAt e0.scheduledFor now = true ∧
      userBusy s e0.userId = false ∧
      s' = updateEntry s eid fun e => dispatchEntry e now := by
  unfold Dispatch at h
  split at h
  · simp at h
  · next e0 hf =>
    split at h
    · next hst =>
      simp only [Except.ok.injEq] at h
      exact ⟨e0, hf, hst.1, hst.2.1, hst.2.2, h.symm⟩
    · simp at h

/-- Inversion of a successful `Resolve`. -/
lemma resolve_ok {cfg : QueueConfig} {s s' : QState} {eid : ℕ} {o : Outcome}
    {now jit : ℕ} (h : Resolve cfg s eid o now jit = .ok s') :
    ∃ e0, s.entries.find? (fun e => e.id == eid) = some e0 ∧
      e0.status = .in_progress ∧
      s' = updateEntry s eid fun e => resolveEntry cfg e o now jit := by
  unfold Resolve at h
  split at h
  · simp at h
  · next e0 hf =>
    split at h
    · next hst =>
      simp only [Except.ok.injEq] at h
      exact ⟨e0, hf, hst, h.symm⟩
    · simp at h

/-- Every entry of an updated store comes from an entry of the old
store: untouched when its id differs, transformed when it matches. -/
lemma updateEntry_mem {s : QState} {eid : ℕ} {f : QueueEntry → QueueEntry}
    {e' : QueueEntry} (h : e' ∈ (updateEntry s eid f).entries) :
    ∃ e ∈ s.entries, (e.id ≠ eid ∧ e' = e) ∨ (e.id = eid ∧ e' = f e) := by
  simp only [updateEntry, List.mem_map] at h
  obtain ⟨e, he, hfe⟩ := h
  by_cases hid : e.id = eid
  · refine ⟨e, he, Or.inr ⟨hid, ?_⟩⟩
    rw [← hfe, if_pos (by simpa using hid)]
  · refine ⟨e, he, Or.inl ⟨hid, ?_⟩⟩
    rw [← hfe, if_neg (by simpa using hid)]

/-- Distinct ids identify entries uniquely. -/
lemma eq_of_id_eq {s : QState}
    (hn : s.entries.Pairwise fun a b => a.id ≠ b.id)
    {e e' : QueueEntry} (he : e ∈ s.entries) (he' : e' ∈ s.entries)
    (h : e.id = e'.id) : e = e' := by
  by_contra hne
  exact hn.forall (fun a b hab => fun hba => hab hba.symm) he he' hne h

/-- Unfolding of a failed `userBusy` check: no entry of the user is
`in_progress`. -/
lemma userBusy_eq_false {s : QState} {uid : ℕ}
    (h : userBusy s uid = false) :
    ∀ e ∈ s.entries, ¬(e.userId = uid ∧ e.status = Status.in_progress) := by
  intro e he
  simp only [userBusy, List.any_eq_false] at h
  have := h e he
  simpa using this

lemma storeInv_init : StoreInv initState :=
  ⟨by simp [initState], by simp [initState], by simp [initState]⟩

/-- A resolved entry is never left `in_progress`. -/
lemma resolveEntry_status_ne (cfg : QueueConfig) (e : QueueEntry) (o : Outcome)
    (now jit : ℕ) :
    (resolveEntry cfg e o now jit).status ≠ Status.in_progress := by
  unfold resolveEntry
  split
  · simp
  · split
    · split <;> simp
    · split <;> simp

/-- Resolving never changes an entry's identity or counters, only its
status and bookkeeping fields. -/
lemma resolveEntry_frame (cfg : QueueConfig) (e : QueueEntry) (o : Outcome)
    (now jit : ℕ) :
    (resolveEntry cfg e o now jit).id = e.id ∧
      (resolveEntry cfg e o now jit).userId = e.userId ∧
      (resolveEntry cfg e o now jit).jobId = e.jobId ∧
      (resolveEntry cfg e o now jit).attempts = e.attempts ∧
      (resolveEntry cfg e o now jit).maxAttempts = e.maxAttempts := by
  unfold resolveEntry
  split
  · exact ⟨rfl, rfl, rfl, rfl, rfl⟩
  · split
    · split
      · exact ⟨rfl, rfl, rfl, rfl, rfl⟩
      · exact ⟨rfl, rfl, rfl, rfl, rfl⟩
    · split
      · exact ⟨rfl, rfl, rfl, rfl, rfl⟩
      · exact ⟨rfl, rfl, rfl, rfl, rfl⟩

/-- `Enqueue` preserves the store invariants. -/
lemma storeInv_enqueue (cfg : QueueConfig) (s : QState) (u j : ℕ) (url : String)
    (p : ℤ) (now : ℕ) (hinv : StoreInv s) :
    StoreInv { entries := s.entries ++ [newEntry cfg s u j url p now]
               nextId := s.nextId + 1 } := by
  refine ⟨?_, ?_, ?_⟩
  · intro e he
    rcases List.mem_append.mp he with h1 | h2
    · exact Nat.lt_succ_of_lt (hinv.bounded e h1)
    · have he' : e = newEntry cfg s u j url p now := by simpa using h2
      subst he'
      exact Nat.lt_succ_self _
  · refine List.pairwise_append.mpr ⟨hinv.nodup, by simp, ?_⟩
    intro a ha b hb
    have hb' : b = newEntry cfg s u j url p now := by simpa using hb
    subst hb'
    exact Nat.ne_of_lt (hinv.bounded a ha)
  · refine List.pairwise_append.mpr ⟨hinv.onePerUser, by simp, ?_⟩
    intro a ha b hb
    have hb' : b = newEntry cfg s u j url p now := by simpa using hb
    subst hb'
    rintro ⟨-, -, hip⟩
    exact absurd hip (by simp [newEntry])

/-- An update that touches neither ids nor users and never produces an
`in_progress` status preserves the store invariants (this covers
`Cancel` and `Resolve`). -/
lemma storeInv_update_no_ip (s : QState) (eid : ℕ) (f : QueueEntry → QueueEntry)
    (hid : ∀ e, (f e).id = e.id)
    (huser : ∀ e, (f e).userId = e.userId)
    (hst : ∀ e, (f e).status ≠ Status.in_progress)
    (hinv : StoreInv s) : StoreInv (updateEntry s eid f) := by
  have hg : ∀ e : QueueEntry, (if e.id == eid then f e else e).id = e.id := by
    intro e; split
    · exact hid e
    · rfl
  have hgu : ∀ e : QueueEntry,
      (if e.id == eid then f e else e).userId = e.userId := by
    intro e; split
    · exact huser e
    · rfl
  refine ⟨?_, ?_, ?_⟩
  · intro e' he'
    obtain ⟨e, he, hcase⟩ := updateEntry_mem he'
    rcases hcase with ⟨-, rfl⟩ | ⟨-, rfl⟩
    · exact hinv.bounded _ he
    · show (f e).id < s.nextId
      rw [hid e]
      exact hinv.bounded e he
  · simp only [updateEntry]
    refine List.pairwise_map.mpr (hinv.nodup.imp ?_)
    intro a b hab
    simpa only [hg a, hg b] using hab
  · simp only [updateEntry]
    refine List.pairwise_map.mpr (hinv.onePerUser.imp ?_)
    intro a b hab hcontra
    obtain ⟨h1, h2, h3⟩ := hcontra
    have ha2 : a.status = Status.in_progress := by
      by_cases hca : (a.id == eid) = true
      · rw [if_pos hca] at h2
        exact absurd h2 (hst a)
      · rwa [if_neg hca] at h2
    have hb2 : b.status = Status.in_progress := by
      by_cases hcb : (b.id == eid) = true
      · rw [if_pos hcb] at h3
        exact absurd h3 (hst b)
      · rwa [if_neg hcb] at h3
    have hu : a.userId = b.userId := by
      rw [← hgu a, ← hgu b]
      exact h1
    exact hab ⟨hu, ha2, hb2⟩

/-- `Dispatch` preserves the store invariants: the `userBusy` guard
keeps the per-user `in_progress` entries unique. -/
lemma storeInv_dispatch {s : QState} {eid now : ℕ} {e0 : QueueEntry}
    (hf : s.entries.find? (fun e => e.id == eid) = some e0)
    (hbusy : userBusy s e0.userId = false)
    (hinv : StoreInv s) :
    StoreInv (updateEntry s eid fun e => dispatchEntry e now) := by
  have he0mem : e0 ∈ s.entries := List.mem_of_find?_eq_some hf
  have he0id : e0.id = eid := by simpa using List.find?_some hf
  have hg : ∀ e : QueueEntry,
      (if e.id == eid then dispatchEntry e now else e).id = e.id := by
    intro e; split <;> rfl
  have hgu : ∀ e : QueueEntry,
      (if e.id == eid then dispatchEntry e now else e).userId = e.userId := by
    intro e; split <;> rfl
  refine ⟨?_, ?_, ?_⟩
  · intro e' he'
    obtain ⟨e, he, hcase⟩ := updateEntry_mem he'
    rcases hcase with ⟨-, rfl⟩ | ⟨-, rfl⟩
    · exact hinv.bounded _ he
    · exact hinv.bounded e he
  · simp only [updateEntry]
    refine List.pairwise_map.mpr (hinv.nodup.imp ?_)
    intro a b hab
    simpa only [hg a, hg b] using hab
  · simp only [updateEntry]
    refine List.pairwise_map.mpr ((hinv.onePerUser.and hinv.nodup).imp_of_mem ?_)
    intro a b ha hb hR hcontra
    obtain ⟨hPab, hIdab⟩ := hR
    obtain ⟨h1, h2, h3⟩ := hcontra
    have h1' : a.userId = b.userId := by
      rw [← hgu a, ← hgu b]
      exact h1
    by_cases hca : (a.id == eid) = true
    · by_cases hcb : (b.id == eid) = true
      · exact hIdab ((beq_iff_eq.mp hca).trans (beq_iff_eq.mp hcb).symm)
      · have hb3 : b.status = Status.in_progress := by rwa [if_neg hcb] at h3
        have hae0 : a = e0 :=
          eq_of_id_eq hinv.nodup ha he0mem ((beq_iff_eq.mp hca).trans he0id.symm)
        exact userBusy_eq_false hbusy b hb ⟨h1'.symm.trans (by rw [hae0]), hb3⟩
    · have ha2 : a.status = Status.in_progress := by rwa [if_neg hca] at h2
      by_cases hcb : (b.id == eid) = true
      · have hbe0 : b = e0 :=
          eq_of_id_eq hinv.nodup hb he0mem ((beq_iff_eq.mp hcb).trans he0id.symm)
        exact userBusy_eq_false hbusy a ha ⟨h1'.trans (by rw [hbe0]), ha2⟩
      · have hb3 : b.status = Status.in_progress := by rwa [if_neg hcb] at h3
        exact hPab ⟨h1', ha2, hb3⟩

/-- Every evolution step preserves the store invariants. -/
lemma storeInv_step {cfg : QueueConfig} {s s' : QState}
    (h : QStep cfg s s') (hinv : StoreInv s) : StoreInv s' := by
  cases h with
  | enqueue u j url p now eid h =>
    obtain ⟨-, -, hs'⟩ := enqueue_ok h
    subst hs'
    exact storeInv_enqueue cfg s u j url p now hinv
  | cancel eid h =>
    obtain ⟨e0, -, -, hs'⟩ := cancel_ok h
    subst hs'
    exact storeInv_update_no_ip s eid _ (fun e => rfl) (fun e => rfl)
      (fun e hc => Status.noConfusion hc) hinv
  | dispatch eid now h =>
    obtain ⟨e0, hf, -, -, hbusy, hs'⟩ := dispatch_ok h
    subst hs'
    exact storeInv_dispatch hf hbusy hinv
  | resolve eid o now jit h =>
    obtain ⟨e0, -, -, hs'⟩ := resolve_ok h
    subst hs'
    exact storeInv_update_no_ip s eid _
      (fun e => (resolveEntry_frame cfg e o now jit).1)
      (fun e => (resolveEntry_frame cfg e o now jit).2.1)
      (fun e => resolveEntry_status_ne cfg e o now jit) hinv

/-- Every reachable state satisfies the store invariants. -/
lemma reachable_storeInv {cfg : QueueConfig} {s : QState}
    (h : Reachable cfg s) : StoreInv s := by
  induction h with
  | refl => exact storeInv_init
  | tail _ hstep ih => exact storeInv_step hstep ih

/-- Case analysis of `resolveEntry`, following §4.4's four outcome
classes. -/
lemma resolveEntry_cases (cfg : QueueConfig) (e : QueueEntry) (o : Outcome)
    (now jit : ℕ) :
    (o = .success ∧
      resolveEntry cfg e o now jit =
        { e with status := .succeeded, completedAt := some now }) ∨
    (o.isRetryable = true ∧ e.attempts < e.maxAttempts ∧
      resolveEntry cfg e o now jit =
        { e with status := .scheduled
                 scheduledFor := some (cfg.baseDelay * 2 ^ e.attempts + jit) }) ∨
    (o.isRetryable = true ∧ ¬ e.attempts < e.maxAttempts ∧
      resolveEntry cfg e o now jit =
        { e with status := .failed, completedAt := some now
                 lastError := some o }) ∨
    (o = .captchaDetected ∧
      resolveEntry cfg e o now jit = { e with status := .needs_manual_action }) ∨
    (o ≠ .success ∧ o.isRetryable = false ∧ o ≠ .captchaDetected ∧
      resolveEntry cfg e o now jit =
        { e with status := .failed, completedAt := some now
                 lastError := some o }) := by
  unfold resolveEntry
  split
  · next h1 => exact Or.inl ⟨h1, rfl⟩
  · next h1 =>
    split
    · next h2 =>
      split
      · next h3 => exact Or.inr (Or.inl ⟨h2, h3, rfl⟩)
      · next h3 => exact Or.inr (Or.inr (Or.inl ⟨h2, h3, rfl⟩))
    · next h2 =>
      split
      · next h4 => exact Or.inr (Or.inr (Or.inr (Or.inl ⟨h4, rfl⟩)))
      · next h4 =>
        exact Or.inr (Or.inr (Or.inr (Or.inr ⟨h1, by simpa using h2, h4, rfl⟩)))

/-- Every evolution step preserves the attempts discipline, provided
new entries receive a positive retry budget. -/
lemma attemptsOk_step {cfg : QueueConfig} {s s' : QState}
    (hc : 1 ≤ cfg.defaultMaxAttempts) (h : QStep cfg s s')
    (hinv : StoreInv s) (ha : AttemptsOk s) : AttemptsOk s' := by
  cases h with
  | enqueue u j url p now eid h =>
    obtain ⟨-, -, hs'⟩ := enqueue_ok h
    subst hs'
    intro e' he'
    rcases List.mem_append.mp he' with h1 | h2
    · exact ha e' h1
    · have he'' : e' = newEntry cfg s u j url p now := by simpa using h2
      subst he''
      exact ⟨hc, Nat.zero_le _, fun _ => hc⟩
  | cancel eid h =>
    obtain ⟨e0, hf, hst, hs'⟩ := cancel_ok h
    subst hs'
    intro e' he'
    obtain ⟨e, he, hcase⟩ := updateEntry_mem he'
    rcases hcase with ⟨-, rfl⟩ | ⟨-, rfl⟩
    · exact ha _ he
    · obtain ⟨h1, h2, -⟩ := ha e he
      refine ⟨h1, h2, ?_⟩
      rintro (hp | hp) <;> simp at hp
  | dispatch eid now h =>
    obtain ⟨e0, hf, hst, hrd, hbusy, hs'⟩ := dispatch_ok h
    subst hs'
    intro e' he'
    obtain ⟨e, he, hcase⟩ := updateEntry_mem he'
    rcases hcase with ⟨-, rfl⟩ | ⟨hid, rfl⟩
    · exact ha _ he
    · have he0mem := List.mem_of_find?_eq_some hf
      have he0id : e0.id = eid := by simpa using List.find?_some hf
      have hee0 : e = e0 := eq_of_id_eq hinv.nodup he he0mem (hid.trans he0id.symm)
      obtain ⟨h1, -, h3⟩ := ha e he
      have hlt : e.attempts < e.maxAttempts := h3 (by rw [hee0]; exact hst)
      refine ⟨h1, hlt, ?_⟩
      rintro (hp | hp) <;> simp [dispatchEntry] at hp
  | resolve eid o now jit h =>
    obtain ⟨e0, hf, hst, hs'⟩ := resolve_ok h
    subst hs'
    intro e' he'
    obtain ⟨e, he, hcase⟩ := updateEntry_mem he'
    rcases hcase with ⟨-, rfl⟩ | ⟨-, rfl⟩
    · exact ha _ he
    · obtain ⟨h1, h2, -⟩ := ha e he
      obtain ⟨hfr1, hfr2, hfr3, hfr4, hfr5⟩ := resolveEntry_frame cfg e o now jit
      refine ⟨by rw [hfr5]; exact h1, by rw [hfr4, hfr5]; exact h2, ?_⟩
      intro hps
      rw [hfr4, hfr5]
      rcases resolveEntry_cases cfg e o now jit with
        ⟨-, hr⟩ | ⟨-, hlt, hr⟩ | ⟨-, -, hr⟩ | ⟨-, hr⟩ | ⟨-, -, -, hr⟩
      · rw [hr] at hps
        rcases hps with hp | hp <;> simp at hp
      · exact hlt
      · rw [hr] at hps
        rcases hps with hp | hp <;> simp at hp
      · rw [hr] at hps
        rcases hps with hp | hp <;> simp at hp
      · rw [hr] at hps
        rcases hps with hp | hp <;> simp at hp

/-- Every reachable state satisfies the attempts discipline, provided
the configuration hands out a positive retry budget. -/
lemma reachable_attemptsOk {cfg : QueueConfig} {s : QState}
    (hc : 1 ≤ cfg.defaultMaxAttempts) (h : Reachable cfg s) : AttemptsOk s := by
  induction h with
  | refl => intro e he; simp [initState] at he
  | tail hr hstep ih => exact attemptsOk_step hc hstep (reachable_storeInv hr) ih

/-- Entry-level correspondence across one evolution step: an entry is
either untouched or its status follows a valid (extended) edge out of a
non-terminal status. -/
lemma step_entry {cfg : QueueConfig} {s s' : QState} (h : QStep cfg s s')
    (hinv : StoreInv s) {e e' : QueueEntry}
    (he : e ∈ s.entries) (he' : e' ∈ s'.entries) (hid : e'.id = e.id) :
    e' = e ∨ (validEdge e.status e'.status = true ∧ e.status.isTerminal = false) := by
  cases h with
  | enqueue u j url p now eid h =>
    obtain ⟨-, -, hs'⟩ := enqueue_ok h
    subst hs'
    rcases List.mem_append.mp he' with h1 | h2
    · exact Or.inl (eq_of_id_eq hinv.nodup h1 he hid)
    · have he'' : e' = newEntry cfg s u j url p now := by simpa using h2
      rw [he''] at hid
      exact absurd hid.symm (Nat.ne_of_lt (hinv.bounded e he))
  | cancel eid h =>
    obtain ⟨e0, hf, hst, hs'⟩ := cancel_ok h
    subst hs'
    obtain ⟨a, ha, hcase⟩ := updateEntry_mem he'
    rcases hcase with ⟨-, rfl⟩ | ⟨haid, rfl⟩
    · exact Or.inl (eq_of_id_eq hinv.nodup ha he hid)
    · have he0mem := List.mem_of_find?_eq_some hf
      have he0id : e0.id = eid := by simpa using List.find?_some hf
      have hae0 : a = e0 := eq_of_id_eq hinv.nodup ha he0mem (haid.trans he0id.symm)
      have hae : a = e := eq_of_id_eq hinv.nodup ha he hid
      have hstA : a.status = Status.pending ∨ a.status = Status.scheduled := by
        rw [hae0]; exact hst
      right
      rw [← hae]
      rcases hstA with hp | hp <;> rw [hp] <;> exact ⟨rfl, rfl⟩
  | dispatch eid now h =>
    obtain ⟨e0, hf, hst, hrd, hbusy, hs'⟩ := dispatch_ok h
    subst hs'
    obtain ⟨a, ha, hcase⟩ := updateEntry_mem he'
    rcases hcase with ⟨-, rfl⟩ | ⟨haid, rfl⟩
    · exact Or.inl (eq_of_id_eq hinv.nodup ha he hid)
    · have he0mem := List.mem_of_find?_eq_some hf
      have he0id : e0.id = eid := by simpa using List.find?_some hf
      have hae0 : a = e0 := eq_of_id_eq hinv.nodup ha he0mem (haid.trans he0id.symm)
      have hae : a = e := eq_of_id_eq hinv.nodup ha he hid
      have hstA : a.status = Status.pending ∨ a.status = Status.scheduled := by
        rw [hae0]; exact hst
      right
      rw [← hae]
      rcases hstA with hp | hp <;> rw [hp] <;> exact ⟨rfl, rfl⟩
  | resolve eid o now jit h =>
    obtain ⟨e0, hf, hst, hs'⟩ := resolve_ok h
    subst hs'
    obtain ⟨a, ha, hcase⟩ := updateEntry_mem he'
    rcases hcase with ⟨-, rfl⟩ | ⟨haid, rfl⟩
    · exact Or.inl (eq_of_id_eq hinv.nodup ha he hid)
    · have he0mem := List.mem_of_find?_eq_some hf
      have he0id : e0.id = eid := by simpa using List.find?_some hf
      have hae0 : a = e0 := eq_of_id_eq hinv.nodup ha he0mem (haid.trans he0id.symm)
      have hae : a = e := eq_of_id_eq hinv.nodup ha he
        ((resolveEntry_frame cfg a o now jit).1.symm.trans hid)
      have hstA : a.status = Status.in_progress := by rw [hae0]; exact hst
      right
      rw [← hae]
      rcases resolveEntry_cases cfg a o now jit with
        ⟨-, hr⟩ | ⟨-, -, hr⟩ | ⟨-, -, hr⟩ | ⟨-, hr⟩ | ⟨-, -, -, hr⟩ <;>
        rw [hr, hstA] <;> exact ⟨rfl, rfl⟩

/-- `sW1` is reachable: one `Enqueue` from the empty store. -/
lemma reachW1 : Reachable cfg0 sW1 :=
  Relation.ReflTransGen.tail Relation.ReflTransGen.refl
    (QStep.enqueue initState sW1 7 42 "jobUrl" 5 0 0 rfl)

/-- `sW2` is reachable: dispatch the entry of `sW1`. -/
lemma reachW2 : Reachable cfg0 sW2 :=
  Relation.ReflTransGen.tail reachW1 (QStep.dispatch sW1 sW2 0 1 rfl)

/-- `sC2a` is reachable under the single-attempt configuration. -/
lemma reachC2a : Reachable cfgC2 sC2a :=
  Relation.ReflTransGen.tail Relation.ReflTransGen.refl
    (QStep.enqueue initState sC2a 3 8 "jobUrl" 0 0 0 rfl)

/-- `sC2b` is reachable: dispatch the entry of `sC2a`. -/
lemma reachC2b : Reachable cfgC2 sC2b :=
  Relation.ReflTransGen.tail reachC2a (QStep.dispatch sC2a sC2b 0 0 rfl)

/-- `sC2c` is reachable: the dispatched entry succeeds on its only
permitted try. -/
lemma reachC2c : Reachable cfgC2 sC2c :=
  Relation.ReflTransGen.tail reachC2b (QStep.resolve sC2b sC2c 0 .success 1 0 rfl)

/-- `sC2f` is reachable. -/
lemma reachC2f : Reachable cfgC2 sC2f :=
  Relation.ReflTransGen.tail reachC2b
    (QStep.resolve sC2b sC2f 0 .navigationError 1 0 rfl)

/-- A concrete step out of `sC2f`. -/
lemma stepC2f : QStep cfgC2 sC2f sC2f2 :=
  QStep.enqueue sC2f sC2f2 9 9 "jobUrl" 0 2 1 rfl

/-- The Bool duplicate check agrees with its propositional reading. -/
lemma nonTerminalFor_iff {s : QState} {u j : ℕ} :
    nonTerminalFor s u j = true ↔
      ∃ e ∈ s.entries, e.userId = u ∧ e.jobId = j ∧ e.status.isTerminal = false := by
  simp only [nonTerminalFor, List.any_eq_true, Bool.and_eq_true, beq_iff_eq,
    Bool.not_eq_true', and_assoc]

/-- `Dispatch` reports `InvalidStateError` whenever the found entry
fails the eligibility guard. -/
lemma dispatch_not_eligible {s : QState} {eid now : ℕ} {e : QueueEntry}
    (hf : s.entries.find? (fun x => x.id == eid) = some e)
    (hn : ¬((e.status = Status.pending ∨ e.status = Status.scheduled)
        ∧ readyAt e.scheduledFor now = true
        ∧ userBusy s e.userId = false)) :
    Dispatch s eid now = .error .InvalidStateError := by
  unfold Dispatch
  split
  · next hnone => rw [hnone] at hf; cases hf
  · next e1 hf1 =>
    rw [hf1] at hf
    injection hf with hf
    subst hf
    rw [if_neg hn]

/-- `Resolve` reports `InvalidStateError` whenever the found entry is
not `in_progress`. -/
lemma resolve_not_in_progress {cfg : QueueConfig} {s : QState} {eid : ℕ}
    {o : Outcome} {now jit : ℕ} {e : QueueEntry}
    (hf : s.entries.find? (fun x => x.id == eid) = some e)
    (hn : e.status ≠ Status.in_progress) :
    Resolve cfg s eid o now jit = .error .InvalidStateError := by
  unfold Resolve
  split
  · next hnone => rw [hnone] at hf; cases hf
  · next e1 hf1 =>
    rw [hf1] at hf
    injection hf with hf
    subst hf
    rw [if_neg hn]

/-- Adding one matched skill never decreases the Jaccard-style skills
component. -/
lemma skillsScore_insert_mono (ps req : Finset ℕ) (sk : ℕ)
    (hmem : sk ∈ req) (hnew : sk ∉ ps) :
    skillsScore (some ps) req ≤ skillsScore (some (insert sk ps)) req := by
  have hsub : sk ∈ ps ∪ req := Finset.mem_union_right _ hmem
  have hunion : insert sk ps ∪ req = ps ∪ req := by
    rw [Finset.insert_union, Finset.insert_eq_self.mpr hsub]
  have hinter : insert sk ps ∩ req = insert sk (ps ∩ req) :=
    Finset.insert_inter_of_mem hmem
  have hcard0 : (ps ∪ req).card ≠ 0 :=
    Finset.card_ne_zero_of_mem hsub
  have hcard : (insert sk (ps ∩ req)).card = (ps ∩ req).card + 1 :=
    Finset.card_insert_of_not_mem fun hc => hnew (Finset.mem_of_mem_inter_left hc)
  have hupos : (0 : ℚ) < ((ps ∪ req).card : ℚ) := by
    exact_mod_cast Nat.pos_of_ne_zero hcard0
  simp only [skillsScore]
  rw [hunion, hinter, if_neg hcard0, if_neg hcard0, hcard]
  push_cast
  gcongr
  linarith

/-! ## Claim theorems -/

/-- C1: at every instant, for every userId, at most one `QueueEntry` of
that user is `in_progress`: no reachable state of the modelled system
contains two entries with the same `userId` that are both
`in_progress`. -/
theorem C1_one_in_progress_per_user (cfg : QueueConfig) (s : QState)
    (h : Reachable cfg s) :
    s.entries.Pairwise fun a b =>
      ¬(a.userId = b.userId ∧ a.status = Status.in_progress ∧
        b.status = Status.in_progress) :=
  (reachable_storeInv h).onePerUser

/-- Witness for C1: the invariant at the concrete reachable state `sW2`
(one enqueued and dispatched entry). -/
theorem C1_witness :
    sW2.entries.Pairwise fun a b =>
      ¬(a.userId = b.userId ∧ a.status = Status.in_progress ∧
        b.status = Status.in_progress) :=
  C1_one_in_progress_per_user cfg0 sW2 reachW2

/-- C2 counterexample: the claim "once the limit is reached the entry's
status is permanently `failed`" is false: the reachable state `sC2c`
(enqueue under `maxAttempts = 1`, dispatch, succeed) contains an entry
with `attempts = maxAttempts = 1` whose status is `succeeded`, not
`failed`. -/
theorem C2_counterexample :
    Reachable cfgC2 sC2c ∧ 1 ≤ cfgC2.defaultMaxAttempts ∧
      sC2c.entries.map (fun e => (e.attempts, e.maxAttempts, e.status)) =
        [(1, 1, Status.succeeded)] ∧
      Status.succeeded ≠ Status.failed :=
  ⟨reachC2c, by decide, rfl, by decide⟩

/-- C2 (amended): in every reachable state under a positive retry
budget, `attempts` never exceeds `maxAttempts`; a retryable outcome
resolved once `attempts` has reached `maxAttempts` makes the status
`failed`; and `failed` is permanent: no later operation changes such an
entry.  (Reaching the limit with a success leaves the entry
`succeeded`, so the limit alone does not force `failed`.) -/
theorem C2_attempts_bounded_failed_permanent :
    (∀ (cfg : QueueConfig) (s : QState), 1 ≤ cfg.defaultMaxAttempts →
        Reachable cfg s → ∀ e ∈ s.entries, e.attempts ≤ e.maxAttempts) ∧
    (∀ (cfg : QueueConfig) (e : QueueEntry) (o : Outcome) (now jit : ℕ),
        o.isRetryable = true → e.maxAttempts ≤ e.attempts →
        (resolveEntry cfg e o now jit).status = Status.failed) ∧
    (∀ (cfg : QueueConfig) (s s' : QState), QStep cfg s s' → Reachable cfg s →
        ∀ e ∈ s.entries, e.status = Status.failed →
        ∀ e' ∈ s'.entries, e'.id = e.id → e' = e) := by
  refine ⟨?_, ?_, ?_⟩
  · intro cfg s hc h e he
    exact ((reachable_attemptsOk hc h) e he).2.1
  · intro cfg e o now jit ho hge
    rcases resolveEntry_cases cfg e o now jit with
      ⟨hs, -⟩ | ⟨-, hlt, -⟩ | ⟨-, -, hr⟩ | ⟨hc, -⟩ | ⟨-, hnr, -, -⟩
    · subst hs; simp [Outcome.isRetryable] at ho
    · omega
    · rw [hr]
    · subst hc; simp [Outcome.isRetryable] at ho
    · rw [hnr] at ho; cases ho
  · intro cfg s s' hstep hr e he hfail e' he' hid
    rcases step_entry hstep (reachable_storeInv hr) he he' hid with heq | ⟨-, hterm⟩
    · exact heq
    · rw [hfail] at hterm
      simp [Status.isTerminal] at hterm

/-- Witness for the amended C2: its three parts applied at concrete
inputs (the succeeded entry of `sC2c`, the limit entry `eB`, and the
enqueue step out of the state `sC2f` holding the failed entry `eF`). -/
theorem C2_witness :
    eC2s.attempts ≤ eC2s.maxAttempts ∧
      (resolveEntry cfgC2 eB .navigationError 1 0).status = Status.failed ∧
      eF = eF :=
  ⟨C2_attempts_bounded_failed_permanent.1 cfgC2 sC2c (by decide) reachC2c eC2s
      (by decide),
   C2_attempts_bounded_failed_permanent.2.1 cfgC2 eB .navigationError 1 0
      (by decide) (by decide),
   C2_attempts_bounded_failed_permanent.2.2 cfgC2 sC2f sC2f2 stepC2f reachC2f eF
      (by decide) (by decide) eF (by decide) rfl⟩

/-- C3: `Enqueue` fails with `DuplicateError` exactly when a
non-terminal entry for the (userId, jobId) pair already exists;
otherwise it records a fresh `pending` entry under the store's next
(never previously used) id and returns that id; in particular §8's
Scenario D: a second enqueue for the same pair while the first entry is
still `pending` fails with `DuplicateError`. -/
theorem C3_enqueue_duplicate :
    (∀ (cfg : QueueConfig) (s : QState) (u j : ℕ) (url : String) (p : ℤ) (now : ℕ),
        Enqueue cfg s u j url p now = .error .DuplicateError ↔
          ∃ e ∈ s.entries, e.userId = u ∧ e.jobId = j ∧
            e.status.isTerminal = false) ∧
    (∀ (cfg : QueueConfig) (s : QState) (u j : ℕ) (url : String) (p : ℤ) (now : ℕ),
        (¬∃ e ∈ s.entries, e.userId = u ∧ e.jobId = j ∧
            e.status.isTerminal = false) →
          Enqueue cfg s u j url p now =
            .ok ({ entries := s.entries ++ [newEntry cfg s u j url p now]
                   nextId := s.nextId + 1 }, s.nextId)) ∧
    (∀ (cfg : QueueConfig) (s : QState), Reachable cfg s →
        ∀ e ∈ s.entries, e.id ≠ s.nextId) ∧
    (sW1.entries.map QueueEntry.status = [Status.pending] ∧
      Enqueue cfg0 sW1 7 42 "jobUrl" 5 1 = .error .DuplicateError) := by
  refine ⟨?_, ?_, ?_, rfl, rfl⟩
  · intro cfg s u j url p now
    constructor
    · intro h
      by_cases hd : nonTerminalFor s u j = true
      · exact nonTerminalFor_iff.mp hd
      · exfalso
        unfold Enqueue at h
        rw [if_neg hd] at h
        cases h
    · intro hex
      unfold Enqueue
      rw [if_pos (nonTerminalFor_iff.mpr hex)]
  · intro cfg s u j url p now hnex
    have hd : ¬nonTerminalFor s u j = true := fun h => hnex (nonTerminalFor_iff.mp h)
    unfold Enqueue
    rw [if_neg hd]
  · intro cfg s hr e he
    exact Nat.ne_of_lt ((reachable_storeInv hr).bounded e he)

/-- Witness for C3: the duplicate test at the concrete store `sW1`, the
successful enqueue from the empty store, and freshness of the id of
`sW1`'s entry. -/
theorem C3_witness :
    (Enqueue cfg0 sW1 7 42 "jobUrl" 5 1 = .error .DuplicateError ↔
      ∃ e ∈ sW1.entries, e.userId = 7 ∧ e.jobId = 42 ∧
        e.status.isTerminal = false) ∧
    Enqueue cfg0 initState 7 42 "jobUrl" 5 0 =
      .ok ({ entries := initState.entries ++ [newEntry cfg0 initState 7 42 "jobUrl" 5 0]
             nextId := initState.nextId + 1 }, initState.nextId) ∧
    eW.id ≠ sW1.nextId :=
  ⟨C3_enqueue_duplicate.1 cfg0 sW1 7 42 "jobUrl" 5 1,
   C3_enqueue_duplicate.2.1 cfg0 initState 7 42 "jobUrl" 5 0 (by simp [initState]),
   C3_enqueue_duplicate.2.2.1 cfg0 sW1 reachW1 eW (by decide)⟩

/-- C4: for every fixed profile and posting, adding one additional
matched skill (a required skill not yet in the profile) never decreases
`Score(profile, posting).overallScore`, the other component scores
being unchanged, provided the skills weight is nonnegative. -/
theorem C4_skill_monotonicity (cfg : ScoreConfig) (p : Profile)
    (posting : JobPosting) (ps : Finset ℕ) (sk : ℕ)
    (hw : 0 ≤ cfg.skillsWeight) (hp : p.skills = some ps)
    (hmem : sk ∈ posting.requiredSkills) (hnew : sk ∉ ps) :
    (Score cfg p posting).overallScore ≤
      (Score cfg { p with skills := some (insert sk ps) } posting).overallScore ∧
    (Score cfg { p with skills := some (insert sk ps) } posting).experience =
      (Score cfg p posting).experience ∧
    (Score cfg { p with skills := some (insert sk ps) } posting).location =
      (Score cfg p posting).location ∧
    (Score cfg { p with skills := some (insert sk ps) } posting).salary =
      (Score cfg p posting).salary := by
  refine ⟨?_, rfl, rfl, rfl⟩
  have hsk := skillsScore_insert_mono ps posting.requiredSkills sk hmem hnew
  simp only [Score, hp]
  have hmul := mul_le_mul_of_nonneg_left hsk hw
  exact add_le_add_right (add_le_add_right (add_le_add_right hmul _) _) _

/-- Witness for C4: one extra matched skill at a concrete profile and
posting with the default weights. -/
theorem C4_witness :
    (Score defaultScoreConfig
        { skills := some {1}, experienceLevel := some 1
          locationPrefs := none, salaryMin := none }
        { id := 0, url := "jobUrl", title := "t", company := "c"
          requiredSkills := {1, 2}, requiredLevel := 1
          salaryRange := some (1, 2), location := 0 }).overallScore ≤
      (Score defaultScoreConfig
        { skills := some (insert 2 {1}), experienceLevel := some 1
          locationPrefs := none, salaryMin := none }
        { id := 0, url := "jobUrl", title := "t", company := "c"
          requiredSkills := {1, 2}, requiredLevel := 1
          salaryRange := some (1, 2), location := 0 }).overallScore :=
  (C4_skill_monotonicity defaultScoreConfig
    { skills := some {1}, experienceLevel := some 1
      locationPrefs := none, salaryMin := none }
    { id := 0, url := "jobUrl", title := "t", company := "c"
      requiredSkills := {1, 2}, requiredLevel := 1
      salaryRange := some (1, 2), location := 0 }
    {1} 2 (by norm_num [defaultScoreConfig]) rfl (by decide) (by decide)).1

/-- C5: `Score` computes `overallScore` as the weighted sum of the four
component scores, the four weights are the named configuration options
of `ScoreConfig`, and the default configuration is 0.5 / 0.3 / 0.1 /
0.1, summing to 1. -/
theorem C5_weighted_sum_default_weights :
    (∀ (cfg : ScoreConfig) (p : Profile) (posting : JobPosting),
        (Score cfg p posting).overallScore =
          cfg.skillsWeight * (Score cfg p posting).skills +
            cfg.experienceWeight * (Score cfg p posting).experience +
            cfg.locationWeight * (Score cfg p posting).location +
            cfg.salaryWeight * (Score cfg p posting).salary) ∧
    defaultScoreConfig.skillsWeight = 1 / 2 ∧
    defaultScoreConfig.experienceWeight = 3 / 10 ∧
    defaultScoreConfig.locationWeight = 1 / 10 ∧
    defaultScoreConfig.salaryWeight = 1 / 10 ∧
    defaultScoreConfig.skillsWeight + defaultScoreConfig.experienceWeight +
      defaultScoreConfig.locationWeight + defaultScoreConfig.salaryWeight = 1 :=
  ⟨fun cfg p posting => rfl, rfl, rfl, rfl, rfl,
    by norm_num [defaultScoreConfig]⟩

/-- C6: `Score` is a total, deterministic, side-effect-free Lean
function (it returns a `MatchResult` on every profile and posting by
construction), and each component score affected by a missing profile
field degrades to 0 rather than raising an error. -/
theorem C6_score_total_missing_fields_zero (cfg : ScoreConfig) (p : Profile)
    (posting : JobPosting) :
    (p.skills = none → (Score cfg p posting).skills = 0) ∧
    (p.experienceLevel = none → (Score cfg p posting).experience = 0) ∧
    (p.locationPrefs = none → (Score cfg p posting).location = 0) ∧
    (p.salaryMin = none → (Score cfg p posting).salary = 0) := by
  refine ⟨fun h => ?_, fun h => ?_, fun h => ?_, fun h => ?_⟩ <;>
    simp [Score, skillsScore, experienceScore, locationScore, salaryScore, h]

/-- Witness for C6: the all-missing profile scores 0 on every component
against a concrete posting. -/
theorem C6_witness :
    (Score defaultScoreConfig
        { skills := none, experienceLevel := none
          locationPrefs := none, salaryMin := none }
        { id := 0, url := "jobUrl", title := "t", company := "c"
          requiredSkills := {1, 2}, requiredLevel := 1
          salaryRange := some (1, 2), location := 0 }).skills = 0 ∧
    (Score defaultScoreConfig
        { skills := none, experienceLevel := none
          locationPrefs := none, salaryMin := none }
        { id := 0, url := "jobUrl", title := "t", company := "c"
          requiredSkills := {1, 2}, requiredLevel := 1
          salaryRange := some (1, 2), location := 0 }).experience = 0 ∧
    (Score defaultScoreConfig
        { skills := none, experienceLevel := none
          locationPrefs := none, salaryMin := none }
        { id := 0, url := "jobUrl", title := "t", company := "c"
          requiredSkills := {1, 2}, requiredLevel := 1
          salaryRange := some (1, 2), location := 0 }).location = 0 ∧
    (Score defaultScoreConfig
        { skills := none, experienceLevel := none
          locationPrefs := none, salaryMin := none }
        { id := 0, url := "jobUrl", title := "t", company := "c"
          requiredSkills := {1, 2}, requiredLevel := 1
          salaryRange := some (1, 2), location := 0 }).salary = 0 := by
  have h := C6_score_total_missing_fields_zero defaultScoreConfig
    { skills := none, experienceLevel := none
      locationPrefs := none, salaryMin := none }
    { id := 0, url := "jobUrl", title := "t", company := "c"
      requiredSkills := {1, 2}, requiredLevel := 1
      salaryRange := some (1, 2), location := 0 }
  exact ⟨h.1 rfl, h.2.1 rfl, h.2.2.1 rfl, h.2.2.2 rfl⟩

/-- C7 counterexample: the claim "Resolve(entry, outcome) increments
attempts" is false in the model: resolving a retryable
`NavigationError` on the `in_progress` entry `eC7` (attempts 1 of 5)
reschedules it with `attempts` unchanged at 1, not incremented to 2
(the counter advances at dispatch instead). -/
theorem C7_counterexample :
    eC7.status = Status.in_progress ∧
    Outcome.navigationError.isRetryable = true ∧
    eC7.attempts < eC7.maxAttempts ∧
    Resolve cfg0 sC7 0 .navigationError 3 4 =
      .ok { entries := [{ eC7 with status := Status.scheduled, scheduledFor := some 64 }]
            nextId := 1 } ∧
    ({ eC7 with status := Status.scheduled, scheduledFor := some 64 } : QueueEntry).attempts
        = eC7.attempts ∧
    ({ eC7 with status := Status.scheduled, scheduledFor := some 64 } : QueueEntry).attempts
        ≠ eC7.attempts + 1 :=
  ⟨rfl, rfl, by decide, rfl, rfl, by decide⟩

/-- C7 (amended): `Dispatch` increments `attempts` when a try starts;
`Resolve` of a retryable outcome reschedules the entry with
next-eligible time `baseDelay * 2 ^ attempts + jitter` while
`attempts < maxAttempts` and otherwise marks it permanently `failed`
recording `lastError`, leaving the counter to `Dispatch`; consequently
§8's Scenario C (`maxAttempts = 5`, `NavigationError` on attempts 1 and
2, success on attempt 3) ends `succeeded` with `attempts = 3`. -/
theorem C7_retry_backoff_spec :
    (∀ (cfg : QueueConfig) (e : QueueEntry) (o : Outcome) (now jit : ℕ),
        o.isRetryable = true → e.attempts < e.maxAttempts →
        resolveEntry cfg e o now jit =
          { e with status := Status.scheduled
                   scheduledFor := some (cfg.baseDelay * 2 ^ e.attempts + jit) }) ∧
    (∀ (cfg : QueueConfig) (e : QueueEntry) (o : Outcome) (now jit : ℕ),
        o.isRetryable = true → e.maxAttempts ≤ e.attempts →
        resolveEntry cfg e o now jit =
          { e with status := Status.failed, completedAt := some now
                   lastError := some o }) ∧
    (∀ (e : QueueEntry) (now : ℕ),
        (dispatchEntry e now).attempts = e.attempts + 1) ∧
    (scenarioC cfg0).map (fun s => s.entries.map fun e => (e.status, e.attempts)) =
      .ok [(Status.succeeded, 3)] := by
  refine ⟨?_, ?_, fun e now => rfl, rfl⟩
  · intro cfg e o now jit ho hlt
    have hns : o ≠ Outcome.success := by
      intro h
      subst h
      simp [Outcome.isRetryable] at ho
    unfold resolveEntry
    rw [if_neg hns, if_pos ho, if_pos hlt]
  · intro cfg e o now jit ho hge
    have hns : o ≠ Outcome.success := by
      intro h
      subst h
      simp [Outcome.isRetryable] at ho
    unfold resolveEntry
    rw [if_neg hns, if_pos ho, if_neg (by omega : ¬e.attempts < e.maxAttempts)]

/-- Witness for the amended C7: the retry branch on the concrete entry
`eC7` and the exhaustion branch on the limit entry `eB`. -/
theorem C7_witness :
    resolveEntry cfg0 eC7 .navigationError 3 4 =
      { eC7 with status := Status.scheduled
                 scheduledFor := some (cfg0.baseDelay * 2 ^ eC7.attempts + 4) } ∧
    resolveEntry cfgC2 eB .navigationError 1 0 =
      { eB with status := Status.failed, completedAt := some 1
                lastError := some Outcome.navigationError } ∧
    (dispatchEntry eW 1).attempts = eW.attempts + 1 :=
  ⟨C7_retry_backoff_spec.1 cfg0 eC7 .navigationError 3 4 (by decide) (by decide),
   C7_retry_backoff_spec.2.1 cfgC2 eB .navigationError 1 0 (by decide) (by decide),
   C7_retry_backoff_spec.2.2.1 eW 1⟩

/-- C8: resolving `CaptchaDetected` sets status `needs_manual_action`
leaving `attempts` (and every other field) unchanged, and such an entry
is not re-dispatched automatically: both `Dispatch` and `Resolve`
reject it with `InvalidStateError` until an external action re-enqueues
it. -/
theorem C8_captcha_needs_manual_action :
    (∀ (cfg : QueueConfig) (e : QueueEntry) (now jit : ℕ),
        resolveEntry cfg e .captchaDetected now jit =
          { e with status := Status.needs_manual_action }) ∧
    (∀ (cfg : QueueConfig) (e : QueueEntry) (now jit : ℕ),
        (resolveEntry cfg e .captchaDetected now jit).attempts = e.attempts) ∧
    (∀ (s : QState) (eid now : ℕ) (e : QueueEntry),
        s.entries.find? (fun x => x.id == eid) = some e →
        e.status = Status.needs_manual_action →
        Dispatch s eid now = .error .InvalidStateError) ∧
    (∀ (cfg : QueueConfig) (s : QState) (eid : ℕ) (o : Outcome) (now jit : ℕ)
        (e : QueueEntry),
        s.entries.find? (fun x => x.id == eid) = some e →
        e.status = Status.needs_manual_action →
        Resolve cfg s eid o now jit = .error .InvalidStateError) := by
  have h1 : ∀ (cfg : QueueConfig) (e : QueueEntry) (now jit : ℕ),
      resolveEntry cfg e .captchaDetected now jit =
        { e with status := Status.needs_manual_action } := by
    intro cfg e now jit
    unfold resolveEntry
    rw [if_neg (by decide : ¬(Outcome.captchaDetected = Outcome.success)),
      if_neg (by decide : ¬(Outcome.captchaDetected.isRetryable = true)),
      if_pos rfl]
  refine ⟨h1, fun cfg e now jit => by rw [h1 cfg e now jit], ?_, ?_⟩
  · intro s eid now e hf hstat
    refine dispatch_not_eligible hf ?_
    rintro ⟨h | h, -, -⟩ <;> rw [hstat] at h <;> cases h
  · intro cfg s eid o now jit e hf hstat
    refine resolve_not_in_progress hf ?_
    rw [hstat]
    decide

/-- Witness for C8: the captcha transition on the concrete entry `eC7`
and the rejection of dispatch/resolve on the manual-action store `sM`. -/
theorem C8_witness :
    resolveEntry cfg0 eC7 .captchaDetected 9 9 =
      { eC7 with status := Status.needs_manual_action } ∧
    (resolveEntry cfg0 eC7 .captchaDetected 9 9).attempts = eC7.attempts ∧
    Dispatch sM 0 5 = .error .InvalidStateError ∧
    Resolve cfg0 sM 0 .success 1 0 = .error .InvalidStateError :=
  ⟨C8_captcha_needs_manual_action.1 cfg0 eC7 9 9,
   C8_captcha_needs_manual_action.2.1 cfg0 eC7 9 9,
   C8_captcha_needs_manual_action.2.2.1 sM 0 5 eM rfl rfl,
   C8_captcha_needs_manual_action.2.2.2 cfg0 sM 0 .success 1 0 eM rfl rfl⟩

/-- C9 counterexample: the claimed edge set omits cancellation: the
execution step `Cancel` out of the reachable state `sW1` moves its
entry from `pending` to `cancelled`, a transition that is not an edge
of the claimed machine `specEdge`. -/
theorem C9_counterexample :
    Reachable cfg0 sW1 ∧ QStep cfg0 sW1 sW1c ∧
      sW1.entries.map QueueEntry.status = [Status.pending] ∧
      sW1c.entries.map QueueEntry.status = [Status.cancelled] ∧
      specEdge Status.pending Status.cancelled = false :=
  ⟨reachW1, QStep.cancel sW1 sW1c 0 rfl, rfl, rfl, rfl⟩

/-- C9 (amended): across every step out of a reachable state, every
entry either keeps its status or follows an edge of the claimed state
machine extended with the two cancellation edges (pending/scheduled →
cancelled); and the terminal statuses `cancelled`, `succeeded`,
`failed` are never exited. -/
theorem C9_valid_transitions (cfg : QueueConfig) (s s' : QState)
    (h : QStep cfg s s') (hr : Reachable cfg s) (e e' : QueueEntry)
    (he : e ∈ s.entries) (he' : e' ∈ s'.entries) (hid : e'.id = e.id) :
    (e'.status = e.status ∨ validEdge e.status e'.status = true) ∧
      (e.status.isTerminal = true → e'.status = e.status) := by
  rcases step_entry h (reachable_storeInv hr) he he' hid with heq | ⟨hval, hterm⟩
  · exact ⟨Or.inl (by rw [heq]), fun _ => by rw [heq]⟩
  · refine ⟨Or.inr hval, fun ht => ?_⟩
    rw [hterm] at ht
    cases ht

/-- Witness for the amended C9: the dispatch step from `sW1` to `sW2`
observed on its single entry. -/
theorem C9_witness :
    ((dispatchEntry eW 1).status = eW.status ∨
        validEdge eW.status (dispatchEntry eW 1).status = true) ∧
      (eW.status.isTerminal = true → (dispatchEntry eW 1).status = eW.status) :=
  C9_valid_transitions cfg0 sW1 sW2 (QStep.dispatch sW1 sW2 0 1 rfl) reachW1
    eW (dispatchEntry eW 1) (by decide) (by decide) rfl

/-- C10: in the client `AuthContext`, `login` clears the stored token
and the user state before contacting the server (the prior state is
discarded entirely), so whenever it resolves with `success: false` the
resulting authentication state has `token`, `user` and the persisted
token all `null`. -/
theorem C10_login_failure_clears_auth (s : AuthState) (resp : LoginResponse)
    (h : (login s resp).2.success = false) :
    (login s resp).1.token = none ∧ (login s resp).1.user = none ∧
      (login s resp).1.storedToken = none ∧
      login s resp = login clearedAuth resp := by
  cases resp with
  | err m => exact ⟨rfl, rfl, rfl, rfl⟩
  | ok tok u =>
    cases tok with
    | none => exact ⟨rfl, rfl, rfl, rfl⟩
    | some t =>
      by_cases ht : t = ""
      · simp only [login, ht, if_pos]
        exact ⟨rfl, rfl, rfl, trivial⟩
      · exfalso
        simp [login, ht] at h

/-- Witness for C10: a rejected login (wrong credentials) from a state
still holding a stale session leaves a fully cleared state. -/
theorem C10_witness :
    (login { storedToken := some "stale", token := some "stale", user := some 3 }
        (LoginResponse.err "Invalid credentials")).1.token = none ∧
      (login { storedToken := some "stale", token := some "stale", user := some 3 }
        (LoginResponse.err "Invalid credentials")).1.user = none ∧
      (login { storedToken := some "stale", token := some "stale", user := some 3 }
        (LoginResponse.err "Invalid credentials")).1.storedToken = none ∧
      login { storedToken := some "stale", token := some "stale", user := some 3 }
          (LoginResponse.err "Invalid credentials") =
        login clearedAuth (LoginResponse.err "Invalid credentials") :=
  C10_login_failure_clears_auth
    { storedToken := some "stale", token := some "stale", user := some 3 }
    (LoginResponse.err "Invalid credentials") rfl
